import Mathlib

/-!
Verification of the image metadata tool in src/app.py.

The Python functions are shallowly embedded as Lean definitions. Numeric
values are modelled with exact rationals: the float arithmetic of the source
on the inputs treated here is division and addition of small rationals, and
the builtin round and the fixed-point string format are modelled with
round-half-to-even on ℚ. Python dicts are modelled as association lists in
insertion order, the Python None as Option.none. An exception that a
function catches internally is modelled by an Option result; an exception
that escapes a function is modelled by an Except result.
-/

namespace RmPhoto

/-- Lookup in an association list, modelling lookup in a Python dict. -/
def dictGet {α β : Type} [DecidableEq α] : List (α × β) → α → Option β
  | [], _ => none
  | (k2, v) :: rest, k => if k2 = k then some v else dictGet rest k

/-- Round half to even, the tie-breaking rule of the Python builtin round and
of fixed-point string formatting. -/
def roundHalfEven (q : ℚ) : ℤ :=
  if Int.fract q < 1/2 then ⌊q⌋
  else if 1/2 < Int.fract q then ⌊q⌋ + 1
  else if 2 ∣ ⌊q⌋ then ⌊q⌋ else ⌊q⌋ + 1

/-- Model of the Python round(x, 8) on the exact value. -/
def round8 (q : ℚ) : ℚ :=
  (roundHalfEven (q * 100000000) : ℚ) / 100000000

/-- Model of the Python fixed-point string format with two decimal places,
as used by the f-string of format_bytes. -/
def fmt2 (q : ℚ) : String :=
  let r := roundHalfEven (|q| * 100)
  (if q < 0 then "-" else "") ++ toString (r / 100) ++ "." ++
    (if r % 100 < 10 then "0" else "") ++ toString (r % 100)

/-- The unit ladder of format_bytes in src/app.py. -/
def units : List String :=
  ["Bytes", "KB", "MB", "GB", "TB"]

/-- The while loop of format_bytes: while size > power and n < len(units) - 1,
with body size /= power; n += 1 and power = 1024. Each pass increases n by one
and the guard needs n < len(units) - 1, so with fuel len(units) - 1 and
initial n = 0 the fuel never runs out before the guard fails; the fuel only
makes the recursion structural. -/
def formatBytesLoop : Nat → ℚ × Nat → ℚ × Nat
  | 0, p => p
  | fuel + 1, (size, n) =>
    if 1024 < size ∧ n < units.length - 1 then
      formatBytesLoop fuel (size / 1024, n + 1)
    else
      (size, n)

/-- format_bytes from src/app.py. -/
def format_bytes (size : ℚ) : String :=
  let p := formatBytesLoop (units.length - 1) (size, 0)
  fmt2 p.1 ++ " " ++ units.getD p.2 ""

/-- get_decimal_from_dms from src/app.py. The argument dms is the sequence of
(numerator, denominator) integer pairs; ref is the decoded reference string.
A zero denominator raises ZeroDivisionError in Python and fewer than three
elements raise IndexError; the function catches every exception, emits a
warning, and returns None, modelled here by the none result. -/
def get_decimal_from_dms (dms : List (ℤ × ℤ)) (ref : String) : Option ℚ :=
  match dms with
  | d :: m :: s :: _ =>
    if d.2 = 0 ∨ m.2 = 0 ∨ s.2 = 0 then none
    else
      let degrees : ℚ := (d.1 : ℚ) / (d.2 : ℚ)
      let minutes : ℚ := (m.1 : ℚ) / (m.2 : ℚ)
      let seconds : ℚ := (s.1 : ℚ) / (s.2 : ℚ)
      let decimal := degrees + minutes / 60 + seconds / 3600
      let signed := if ref = "S" ∨ ref = "W" then -decimal else decimal
      some (round8 signed)
  | _ => none

/-- Raw value of one metadata tag, per the data model: integer, rational
(one pair or a tuple of pairs, as GPS coordinates are stored), text, or a
byte sequence. -/
inductive TagValue : Type
  | intV (n : ℤ)
  | ratV (p : ℤ × ℤ)
  | ratList (l : List (ℤ × ℤ))
  | strV (s : String)
  | bytesV (b : List Nat)
deriving DecidableEq

/-- One tag-id-to-value mapping, one metadata group. -/
abbrev Ifd : Type := List (Nat × TagValue)

/-- Value of one top-level entry of the metadata structure: a tag mapping,
or a non-mapping payload (the thumbnail byte blob, or None). -/
inductive IfdData : Type
  | ifd (tags : Ifd)
  | blob (b : List Nat)
  | noneData
deriving DecidableEq

/-- The metadata structure returned by the tag-parsing library: group name to
group data, in insertion order. -/
abbrev ExifDict : Type := List (String × IfdData)

/-- Model of bytes.decode(errors="ignore"): best-effort text decoding that
drops undecodable bytes. We model the ASCII fragment of UTF-8, which covers
every byte sequence appearing in the development; bytes at or above 128 are
dropped as undecodable. -/
def pyDecodeIgnore (b : List Nat) : String :=
  String.mk (b.filterMap (fun n => if n < 128 then some (Char.ofNat n) else none))

/-- Model of strict bytes.decode() as called on the GPS reference values:
returns the decoded text, or none when decoding raises. A value that is not
a byte sequence has no decode attribute and also raises, hence none. We model
the ASCII fragment of UTF-8: a byte at or above 128 starts a non-ASCII
sequence, which for the one-letter reference payloads of interest is invalid
and raises UnicodeDecodeError. -/
def pyDecodeStrict : TagValue → Option String
  | TagValue.bytesV b =>
    if b.all (fun n => n < 128) then
      some (String.mk (b.map Char.ofNat))
    else
      none
  | _ => none

/-- The byte-to-text step applied to a retrieved tag value before display:
if isinstance(value, bytes): value = value.decode(errors="ignore"). The
except branch of the source is dead code because decode with errors ignored
does not raise, so the model is total. -/
def decodeTagValue : TagValue → TagValue
  | TagValue.bytesV b => TagValue.strV (pyDecodeIgnore b)
  | v => v

/-- Model of the Python str() rendering of a tag value interpolated into an
f-string. -/
def renderRatPair (p : ℤ × ℤ) : String :=
  "(" ++ toString p.1 ++ ", " ++ toString p.2 ++ ")"

/-- Model of the Python str() rendering of a tag value interpolated into an
f-string (tuples render with parentheses and comma separators). -/
def renderValue : TagValue → String
  | TagValue.intV n => toString n
  | TagValue.ratV p => renderRatPair p
  | TagValue.ratList l => "(" ++ String.intercalate ", " (l.map renderRatPair) ++ ")"
  | TagValue.strV s => s
  | TagValue.bytesV b => pyDecodeIgnore b

/-- Tag identifiers of piexif.ImageIFD used by the primary-value table. -/
def ImageIFD_Make : Nat := 271

/-- Tag identifier piexif.ImageIFD.Model. -/
def ImageIFD_Model : Nat := 272

/-- Tag identifier piexif.ImageIFD.Orientation. -/
def ImageIFD_Orientation : Nat := 274

/-- Tag identifier piexif.ImageIFD.XResolution. -/
def ImageIFD_XResolution : Nat := 282

/-- Tag identifier piexif.ImageIFD.YResolution. -/
def ImageIFD_YResolution : Nat := 283

/-- Tag identifier piexif.ImageIFD.ResolutionUnit. -/
def ImageIFD_ResolutionUnit : Nat := 296

/-- Tag identifier piexif.ImageIFD.Software. -/
def ImageIFD_Software : Nat := 305

/-- Tag identifier piexif.GPSIFD.GPSLatitudeRef. -/
def GPSIFD_GPSLatitudeRef : Nat := 1

/-- Tag identifier piexif.GPSIFD.GPSLatitude. -/
def GPSIFD_GPSLatitude : Nat := 2

/-- Tag identifier piexif.GPSIFD.GPSLongitudeRef. -/
def GPSIFD_GPSLongitudeRef : Nat := 3

/-- Tag identifier piexif.GPSIFD.GPSLongitude. -/
def GPSIFD_GPSLongitude : Nat := 4

/-- Model of exif_dict.get(name, \x7b\x7d) followed by use of the result as a
tag mapping. An absent group yields the empty mapping. The source would raise
if the named group held a non-mapping value; the metadata structure of the
data model only carries mappings under the named groups (the thumbnail blob
lives under its own key), and the theorems that depend on it carry that
invariant as a hypothesis. -/
def getIfd (e : ExifDict) (name : String) : Ifd :=
  match dictGet e name with
  | some (IfdData.ifd tags) => tags
  | _ => []

/-- Expresses that a group entry, when present, is a tag mapping. -/
def isMapping : IfdData → Bool
  | IfdData.ifd _ => true
  | _ => false

/-- Expresses that the named top-level entry, when present, is a tag
mapping, as the data model guarantees for the named groups; only the
thumbnail entry carries a non-mapping payload. -/
def groupIsMapping (e : ExifDict) (name : String) : Bool :=
  match dictGet e name with
  | some gd => isMapping gd
  | none => true

/-- The fixed tag-id-to-label table of get_primary_exif_values. -/
def tag_map : List (Nat × String) :=
  [(ImageIFD_Make, "Make"),
   (ImageIFD_Model, "Model"),
   (ImageIFD_Orientation, "Orientation"),
   (ImageIFD_XResolution, "XResolution"),
   (ImageIFD_YResolution, "YResolution"),
   (ImageIFD_ResolutionUnit, "ResolutionUnit"),
   (ImageIFD_Software, "Software")]

/-- get_primary_exif_values from src/app.py: for every entry of the table,
look the tag up in the "0th" group (None when absent), decode byte values,
and store the result under the label. The Python dict it builds holds every
label, in table order, so it is modelled as the corresponding list of
label-value pairs. -/
def get_primary_exif_values (e : ExifDict) : List (String × Option TagValue) :=
  tag_map.map (fun tl => (tl.2, (dictGet (getIfd e "0th") tl.1).map decodeTagValue))

/-- extract_gps_coords from src/app.py. Only KeyError is caught, so an absent
tag yields the ok (none, none) result, while a reference value whose strict
decode raises propagates the exception, modelled by the error result. The
lookup and decode order follows the evaluation order of the source: latitude
value, latitude reference, decode, convert; then longitude value, longitude
reference, decode, convert. A GPS value of the wrong shape is passed to the
converter, which catches the resulting error itself; a non-tuple value is
modelled by the empty sequence, on which the converter returns none exactly
as the source does. -/
def asRatList : TagValue → List (ℤ × ℤ)
  | TagValue.ratList l => l
  | _ => []

/-- extract_gps_coords from src/app.py, see asRatList for the shape handling. -/
def extract_gps_coords (e : ExifDict) : Except Unit (Option ℚ × Option ℚ) :=
  let gps := getIfd e "GPS"
  match dictGet gps GPSIFD_GPSLatitude with
  | none => Except.ok (none, none)
  | some latv =>
    match dictGet gps GPSIFD_GPSLatitudeRef with
    | none => Except.ok (none, none)
    | some latrefv =>
      match pyDecodeStrict latrefv with
      | none => Except.error ()
      | some latref =>
        let lat := get_decimal_from_dms (asRatList latv) latref
        match dictGet gps GPSIFD_GPSLongitude with
        | none => Except.ok (none, none)
        | some lonv =>
          match dictGet gps GPSIFD_GPSLongitudeRef with
          | none => Except.ok (none, none)
          | some lonrefv =>
            match pyDecodeStrict lonrefv with
            | none => Except.error ()
            | some lonref =>
              Except.ok (lat, get_decimal_from_dms (asRatList lonv) lonref)

/-- One event written to the display surface. -/
inductive RenderEvent : Type
  | subheader (s : String)
  | write (s : String)
deriving DecidableEq

/-- The static tag-name lookup table of the tag-parsing library
(piexif.TAGS): group name to tag-id-to-name entries. It is library data, not
part of this repository, so the display function is parametric in it. -/
abbrev TagsTable : Type := List (String × List (Nat × String))

/-- display_all_exif from src/app.py: iterate the top-level groups in order;
a group whose value is not a dict, or is an empty dict, is skipped by the
continue statement; otherwise a subheader is written, the tag-name table for
the group is fetched (empty when the group name is unknown), and one line is
written per tag, with the name falling back to Tag followed by the id and
byte values decoded before interpolation. -/
def display_all_exif (TAGS : TagsTable) (e : ExifDict) : List RenderEvent :=
  e.flatMap (fun g =>
    match g.2 with
    | IfdData.ifd tagData =>
      if tagData.isEmpty then []
      else
        let tagDefs := (dictGet TAGS g.1).getD []
        RenderEvent.subheader (g.1 ++ " EXIF") ::
          tagData.map (fun tv =>
            let tagName := (dictGet tagDefs tv.1).getD ("Tag " ++ toString tv.1)
            RenderEvent.write ("**" ++ tagName ++ ":** " ++ renderValue (decodeTagValue tv.2)))
    | _ => [])

/-- Spec-side description of one dumped line, written from the words of the
specification: resolve the tag identifier to a human-readable name via the
static tag-name lookup table, falling back to a synthetic Tag id label when
the id is unknown, decode byte-sequence values to text, and emit one
label/value line. -/
def specDumpLine (TAGS : TagsTable) (groupName : String) (tv : Nat × TagValue) : RenderEvent :=
  let resolved := (dictGet ((dictGet TAGS groupName).getD []) tv.1).getD ("Tag " ++ toString tv.1)
  RenderEvent.write ("**" ++ resolved ++ ":** " ++ renderValue (decodeTagValue tv.2))

/-- Spec-side description of the full metadata dump, written from the words
of the specification: iterate every top-level group, skip any group whose
value is not itself a mapping or is empty, and for each remaining group emit
its heading and one line per tag. -/
def specDump (TAGS : TagsTable) (e : ExifDict) : List RenderEvent :=
  e.flatMap (fun g =>
    match g.2 with
    | IfdData.ifd [] => []
    | IfdData.ifd (t :: ts) =>
      RenderEvent.subheader (g.1 ++ " EXIF") :: (t :: ts).map (specDumpLine TAGS g.1)
    | IfdData.blob _ => []
    | IfdData.noneData => [])

/-- One step of the Loaded render pass of main in src/app.py. -/
inductive Action : Type
  | writeTemp
  | openImage
  | loadExif
  | renderBasicInfo
  | renderGps
  | renderDetail
  | removeTemp
deriving DecidableEq

/-- Outcome oracles of the two external library calls of the Loaded pass:
whether Image.open raises on the uploaded bytes and whether piexif.load
raises on the embedded payload, plus the metadata structure obtained when it
does not. -/
structure RenderEnv : Type where
  decodeRaises : Bool
  parseRaises : Bool
  exif : ExifDict
deriving DecidableEq

/-- The Loaded render pass of main in src/app.py, as the sequence of actions
that actually execute. The temporary file is written first; Image.open and
piexif.load may raise, which aborts the pass; the summary tab then shows the
basic info, calls the extractors, and extract_gps_coords may itself raise (an
exception other than KeyError), which also aborts the pass; otherwise the
detail tab renders and the trailing os.remove runs. There is no
try/finally around the pass, so an abort skips everything after the raising
call, including the removal of the temporary file. -/
def loadedTrace (env : RenderEnv) : List Action :=
  Action.writeTemp ::
    (if env.decodeRaises then []
     else
       Action.openImage ::
         (if env.parseRaises then []
          else
            Action.loadExif ::
              Action.renderBasicInfo ::
                (match extract_gps_coords env.exif with
                 | Except.error _ => []
                 | Except.ok _ => [Action.renderGps, Action.renderDetail, Action.removeTemp])))

/-- Rounding an integer changes nothing. -/
theorem roundHalfEven_intCast (z : ℤ) : roundHalfEven (z : ℚ) = z := by
  rw [roundHalfEven, Int.fract_intCast, Int.floor_intCast]
  norm_num

/-- Round half to even moves a value by at most one half. -/
theorem abs_roundHalfEven_sub_le (q : ℚ) : |(roundHalfEven q : ℚ) - q| ≤ 1/2 := by
  have h0 : 0 ≤ Int.fract q := Int.fract_nonneg q
  have h1 : Int.fract q < 1 := Int.fract_lt_one q
  have hf : (⌊q⌋ : ℚ) = q - Int.fract q := by
    rw [Int.fract]
    ring
  by_cases h : Int.fract q < 1/2
  · rw [roundHalfEven, if_pos h, hf]
    rw [abs_le]
    constructor <;> linarith
  · by_cases h2 : 1/2 < Int.fract q
    · rw [roundHalfEven, if_neg h, if_pos h2]
      push_cast
      rw [hf, abs_le]
      constructor <;> linarith
    · have heq : Int.fract q = 1/2 := le_antisymm (not_lt.mp h2) (not_lt.mp h)
      rw [roundHalfEven, if_neg h, if_neg h2]
      by_cases hp : 2 ∣ ⌊q⌋
      · rw [if_pos hp, hf, heq, abs_le]
        constructor <;> norm_num
      · rw [if_neg hp]
        push_cast
        rw [hf, heq, abs_le]
        constructor <;> linarith

/-- Round half to even is an odd function. -/
theorem roundHalfEven_neg (q : ℚ) : roundHalfEven (-q) = -roundHalfEven q := by
  by_cases h0 : Int.fract q = 0
  · have hz : q = (⌊q⌋ : ℚ) := by
      have := Int.fract q
      rw [Int.fract] at h0
      linarith
    rw [hz, ← Int.cast_neg, roundHalfEven_intCast, roundHalfEven_intCast]
  · have hfneg : Int.fract (-q) = 1 - Int.fract q := Int.fract_neg h0
    have hf : (⌊q⌋ : ℚ) = q - Int.fract q := by
      rw [Int.fract]
      ring
    have hfloor : ⌊-q⌋ = -⌊q⌋ - 1 := by
      have hcast : ((⌊-q⌋ : ℤ) : ℚ) = ((-⌊q⌋ - 1 : ℤ) : ℚ) := by
        have hn : ((⌊-q⌋ : ℤ) : ℚ) = -q - Int.fract (-q) := by
          rw [Int.fract]
          ring
        rw [hn, hfneg]
        push_cast
        rw [hf]
        ring
      exact_mod_cast hcast
    have h0pos : 0 < Int.fract q := lt_of_le_of_ne (Int.fract_nonneg q) (Ne.symm h0)
    by_cases h : Int.fract q < 1/2
    · have hneg : ¬ Int.fract (-q) < 1/2 := by
        rw [hfneg]
        push_neg
        linarith
      have hneg2 : 1/2 < Int.fract (-q) := by
        rw [hfneg]
        linarith
      rw [roundHalfEven, roundHalfEven, if_neg hneg, if_pos hneg2, if_pos h, hfloor]
      ring
    · by_cases h2 : 1/2 < Int.fract q
      · have hneg : Int.fract (-q) < 1/2 := by
          rw [hfneg]
          linarith
        rw [roundHalfEven, roundHalfEven, if_pos hneg, if_neg h, if_pos h2, hfloor]
        ring
      · have heq : Int.fract q = 1/2 := le_antisymm (not_lt.mp h2) (not_lt.mp h)
        have hneg1 : ¬ Int.fract (-q) < 1/2 := by
          rw [hfneg, heq]
          norm_num
        have hneg2 : ¬ 1/2 < Int.fract (-q) := by
          rw [hfneg, heq]
          norm_num
        rw [roundHalfEven, roundHalfEven, if_neg hneg1, if_neg hneg2, if_neg h, if_neg h2,
          hfloor]
        by_cases hp : 2 ∣ ⌊q⌋
        · rw [if_pos hp, if_neg (by omega : ¬ 2 ∣ -⌊q⌋ - 1)]
          ring
        · rw [if_neg hp, if_pos (by omega : 2 ∣ -⌊q⌋ - 1)]
          ring

/-- The model of round(x, 8) is an odd function, so negating before rounding
equals negating after rounding. -/
theorem round8_neg (q : ℚ) : round8 (-q) = -round8 q := by
  rw [round8, round8, neg_mul, roundHalfEven_neg]
  push_cast
  ring

/-- The model of round(x, 8) moves a value by at most half of 10^-8, hence by
less than 10^-8. -/
theorem abs_round8_sub_le (q : ℚ) : |round8 q - q| ≤ 1/100000000 := by
  have h := abs_roundHalfEven_sub_le (q * 100000000)
  have hrw : round8 q - q =
      ((roundHalfEven (q * 100000000) : ℚ) - q * 100000000) / 100000000 := by
    rw [round8]
    ring
  rw [hrw, abs_div]
  rw [show |(100000000 : ℚ)| = 100000000 by norm_num]
  rw [div_le_div_iff₀ (by norm_num) (by norm_num)]
  nlinarith [abs_nonneg ((roundHalfEven (q * 100000000) : ℚ) - q * 100000000)]

/-- Closed form of the converter on a well-formed three-pair input. -/
theorem get_decimal_from_dms_eval (d m s : ℤ × ℤ) (rest : List (ℤ × ℤ)) (ref : String)
    (h1 : d.2 ≠ 0) (h2 : m.2 ≠ 0) (h3 : s.2 ≠ 0) :
    get_decimal_from_dms (d :: m :: s :: rest) ref =
      some (round8 (if ref = "S" ∨ ref = "W"
        then -((d.1 : ℚ) / (d.2 : ℚ) + ((m.1 : ℚ) / (m.2 : ℚ)) / 60 +
          ((s.1 : ℚ) / (s.2 : ℚ)) / 3600)
        else (d.1 : ℚ) / (d.2 : ℚ) + ((m.1 : ℚ) / (m.2 : ℚ)) / 60 +
          ((s.1 : ℚ) / (s.2 : ℚ)) / 3600)) := by
  simp only [get_decimal_from_dms, h1, h2, h3, false_or, if_false, ite_false, or_self]

/-- Invariant of the format_bytes loop: starting at counter n with enough
fuel, the loop performs some number m of divisions, stopping as soon as the
running value is at most 1024 or the counter reaches the last unit index. -/
theorem formatBytesLoop_spec :
    ∀ (fuel : Nat) (s : ℚ) (n : Nat), 4 ≤ fuel + n → n ≤ 4 →
    ∃ m, n + m ≤ 4 ∧ formatBytesLoop fuel (s, n) = (s / 1024 ^ m, n + m) ∧
      (s / 1024 ^ m ≤ 1024 ∨ n + m = 4) ∧ ∀ j, j < m → 1024 < s / 1024 ^ j := by
  intro fuel
  induction fuel with
  | zero =>
    intro s n h4 hn
    have hn4 : n = 4 := by omega
    refine ⟨0, by omega, ?_, Or.inr (by omega), ?_⟩
    · simp [formatBytesLoop]
    · intro j hj
      omega
  | succ fuel ih =>
    intro s n h4 hn
    by_cases hguard : 1024 < s ∧ n < units.length - 1
    · have hn3 : n + 1 ≤ 4 := by
        have := hguard.2
        simp only [units, List.length_cons, List.length_nil] at this
        omega
      obtain ⟨m2, hm2le, hm2eq, hm2prop, hm2all⟩ := ih (s / 1024) (n + 1) (by omega) hn3
      have hstep : formatBytesLoop (fuel + 1) (s, n) = formatBytesLoop fuel (s / 1024, n + 1) := by
        simp only [formatBytesLoop, if_pos hguard]
      have harith : ∀ j : Nat, s / 1024 / 1024 ^ j = s / 1024 ^ (j + 1) := by
        intro j
        rw [div_div, ← pow_succ']
      refine ⟨m2 + 1, by omega, ?_, ?_, ?_⟩
      · rw [hstep, hm2eq, harith]
        have hcount : n + 1 + m2 = n + (m2 + 1) := by omega
        rw [hcount]
      · rcases hm2prop with hv | hc
        · rw [harith] at hv
          exact Or.inl hv
        · exact Or.inr (by omega)
      · intro j hj
        cases j with
        | zero =>
          simpa using hguard.1
        | succ j2 =>
          have := hm2all j2 (by omega)
          rw [harith] at this
          exact this
    · refine ⟨0, by omega, ?_, ?_, ?_⟩
      · simp [formatBytesLoop, hguard]
      · rw [not_and_or] at hguard
        rcases hguard with hv | hc
        · exact Or.inl (by simpa using not_lt.mp hv)
        · refine Or.inr ?_
          simp only [units, List.length_cons, List.length_nil] at hc
          omega
      · intro j hj
        omega

/-- Printing a natural number through the integers changes nothing. -/
theorem toString_int_ofNat (n : ℕ) : toString ((n : ℤ)) = toString n := rfl

/-- Closed form of the two-decimal format on an integer value. -/
theorem fmt2_intCast (z : ℤ) :
    fmt2 (z : ℚ) = (if z < 0 then "-" else "") ++ toString z.natAbs ++ ".00" := by
  have habs : |(z : ℚ)| * 100 = (((z.natAbs : ℤ) * 100 : ℤ) : ℚ) := by
    rw [← Int.cast_abs, Int.abs_eq_natAbs]
    push_cast
    ring
  have hdiv : ((z.natAbs : ℤ) * 100) / 100 = (z.natAbs : ℤ) :=
    Int.mul_ediv_cancel _ (by norm_num)
  have hmod : ((z.natAbs : ℤ) * 100) % 100 = 0 := Int.mul_emod_left _ _
  simp only [fmt2, habs, roundHalfEven_intCast, hdiv, hmod]
  rw [if_pos (by norm_num : (0:ℤ) < 10)]
  simp only [Int.cast_lt_zero]
  rw [toString_int_ofNat, String.append_assoc, String.append_assoc]
  rfl

/-- C1: for every three-element DMS sequence of integer pairs with nonzero
denominators, get_decimal_from_dms returns degrees + minutes/60 +
seconds/3600 rounded to 8 decimal places; for references N and E the result
agrees with that sum within 10^-8, and for references S and W it is the
negation of the same magnitude. -/
theorem c1_dms_conversion (dn dd mn md sn sd : ℤ)
    (h1 : dd ≠ 0) (h2 : md ≠ 0) (h3 : sd ≠ 0) :
    ∃ v : ℚ,
      v = round8 ((dn : ℚ) / (dd : ℚ) + ((mn : ℚ) / (md : ℚ)) / 60 +
        ((sn : ℚ) / (sd : ℚ)) / 3600) ∧
      get_decimal_from_dms [(dn, dd), (mn, md), (sn, sd)] "N" = some v ∧
      get_decimal_from_dms [(dn, dd), (mn, md), (sn, sd)] "E" = some v ∧
      get_decimal_from_dms [(dn, dd), (mn, md), (sn, sd)] "S" = some (-v) ∧
      get_decimal_from_dms [(dn, dd), (mn, md), (sn, sd)] "W" = some (-v) ∧
      |v - ((dn : ℚ) / (dd : ℚ) + ((mn : ℚ) / (md : ℚ)) / 60 +
        ((sn : ℚ) / (sd : ℚ)) / 3600)| ≤ 1 / 100000000 := by
  refine ⟨round8 ((dn : ℚ) / (dd : ℚ) + ((mn : ℚ) / (md : ℚ)) / 60 +
    ((sn : ℚ) / (sd : ℚ)) / 3600), rfl, ?_, ?_, ?_, ?_, abs_round8_sub_le _⟩
  · rw [get_decimal_from_dms_eval (dn, dd) (mn, md) (sn, sd) [] "N" h1 h2 h3,
      if_neg (by decide : ¬("N" = "S" ∨ "N" = "W"))]
  · rw [get_decimal_from_dms_eval (dn, dd) (mn, md) (sn, sd) [] "E" h1 h2 h3,
      if_neg (by decide : ¬("E" = "S" ∨ "E" = "W"))]
  · rw [get_decimal_from_dms_eval (dn, dd) (mn, md) (sn, sd) [] "S" h1 h2 h3,
      if_pos (Or.inl rfl), round8_neg]
  · rw [get_decimal_from_dms_eval (dn, dd) (mn, md) (sn, sd) [] "W" h1 h2 h3,
      if_pos (Or.inr rfl), round8_neg]

/-- Witness for C1 at the DMS triple 40 deg 26 min 0 sec. -/
theorem c1_dms_conversion_witness :
    ((1 : ℤ) ≠ 0 ∧ (1 : ℤ) ≠ 0 ∧ (1 : ℤ) ≠ 0) ∧
    (∃ v : ℚ,
      v = round8 (((40 : ℤ) : ℚ) / ((1 : ℤ) : ℚ) + (((26 : ℤ) : ℚ) / ((1 : ℤ) : ℚ)) / 60 +
        (((0 : ℤ) : ℚ) / ((1 : ℤ) : ℚ)) / 3600) ∧
      get_decimal_from_dms [(40, 1), (26, 1), (0, 1)] "N" = some v ∧
      get_decimal_from_dms [(40, 1), (26, 1), (0, 1)] "E" = some v ∧
      get_decimal_from_dms [(40, 1), (26, 1), (0, 1)] "S" = some (-v) ∧
      get_decimal_from_dms [(40, 1), (26, 1), (0, 1)] "W" = some (-v) ∧
      |v - (((40 : ℤ) : ℚ) / ((1 : ℤ) : ℚ) + (((26 : ℤ) : ℚ) / ((1 : ℤ) : ℚ)) / 60 +
        (((0 : ℤ) : ℚ) / ((1 : ℤ) : ℚ)) / 3600)| ≤ 1 / 100000000) :=
  ⟨⟨by decide, by decide, by decide⟩,
    c1_dms_conversion 40 1 26 1 0 1 (by decide) (by decide) (by decide)⟩

/-- C2: an input whose first three pairs contain a zero denominator, or with
fewer than three pairs, makes get_decimal_from_dms return the missing value;
no exception escapes the converter, which the Option result type records. -/
theorem c2_zero_denominator (dms : List (ℤ × ℤ)) (ref : String)
    (h : (∃ p ∈ dms.take 3, p.2 = 0) ∨ dms.length < 3) :
    get_decimal_from_dms dms ref = none := by
  rcases dms with _ | ⟨d, _ | ⟨m, _ | ⟨s, rest⟩⟩⟩
  · rfl
  · rfl
  · rfl
  · rcases h with ⟨p, hp, hp0⟩ | hlen
    · have htake : (d :: m :: s :: rest).take 3 = [d, m, s] := rfl
      rw [htake] at hp
      have hmem : p = d ∨ p = m ∨ p = s := by
        simpa using hp
      have hz : d.2 = 0 ∨ m.2 = 0 ∨ s.2 = 0 := by
        rcases hmem with rfl | rfl | rfl
        · exact Or.inl hp0
        · exact Or.inr (Or.inl hp0)
        · exact Or.inr (Or.inr hp0)
      simp [get_decimal_from_dms, hz]
    · simp only [List.length_cons] at hlen
      omega

/-- Witness for C2 at a triple with a zero degree denominator. -/
theorem c2_zero_denominator_witness :
    ((∃ p ∈ ([((1 : ℤ), (0 : ℤ)), (2, 1), (3, 1)] : List (ℤ × ℤ)).take 3, p.2 = 0) ∨
      ([((1 : ℤ), (0 : ℤ)), (2, 1), (3, 1)] : List (ℤ × ℤ)).length < 3) ∧
    get_decimal_from_dms [((1 : ℤ), (0 : ℤ)), (2, 1), (3, 1)] "N" = none :=
  ⟨by decide, c2_zero_denominator [(1, 0), (2, 1), (3, 1)] "N" (by decide)⟩

/-- C10: for every reference string other than S and W, including strings
that are neither N nor E, the converter returns the non-negated rounded sum;
the reference is never validated. -/
theorem c10_ref_unvalidated (dn dd mn md sn sd : ℤ) (ref : String)
    (h1 : dd ≠ 0) (h2 : md ≠ 0) (h3 : sd ≠ 0) (hS : ref ≠ "S") (hW : ref ≠ "W") :
    get_decimal_from_dms [(dn, dd), (mn, md), (sn, sd)] ref =
      some (round8 ((dn : ℚ) / (dd : ℚ) + ((mn : ℚ) / (md : ℚ)) / 60 +
        ((sn : ℚ) / (sd : ℚ)) / 3600)) := by
  rw [get_decimal_from_dms_eval (dn, dd) (mn, md) (sn, sd) [] ref h1 h2 h3,
    if_neg (by simp [hS, hW])]

/-- Witness for C10 at the unvalidated reference string X. -/
theorem c10_ref_unvalidated_witness :
    ((1 : ℤ) ≠ 0 ∧ (1 : ℤ) ≠ 0 ∧ (1 : ℤ) ≠ 0 ∧ "X" ≠ "S" ∧ "X" ≠ "W") ∧
    get_decimal_from_dms [(12, 1), (30, 1), (0, 1)] "X" =
      some (round8 (((12 : ℤ) : ℚ) / ((1 : ℤ) : ℚ) + (((30 : ℤ) : ℚ) / ((1 : ℤ) : ℚ)) / 60 +
        (((0 : ℤ) : ℚ) / ((1 : ℤ) : ℚ)) / 3600)) :=
  ⟨⟨by decide, by decide, by decide, by decide, by decide⟩,
    c10_ref_unvalidated 12 1 30 1 0 1 "X" (by decide) (by decide) (by decide) (by decide) (by decide)⟩

/-- The two-decimal format of a small non-negative value is 0.00. -/
theorem fmt2_of_nonneg_lt_half (q : ℚ) (h0 : 0 ≤ q) (hlt : q * 100 < 1/2) :
    fmt2 q = "0.00" := by
  have hfloor : ⌊q * 100⌋ = 0 := by
    rw [Int.floor_eq_zero_iff]
    exact ⟨by positivity, by linarith⟩
  have hfr : Int.fract (q * 100) = q * 100 := by
    rw [Int.fract, hfloor]
    simp
  have habs : |q| = q := abs_of_nonneg h0
  have hrhe : roundHalfEven (q * 100) = 0 := by
    rw [roundHalfEven, hfr, if_pos hlt, hfloor]
  simp only [fmt2, habs, hrhe]
  rw [if_neg (not_lt.mpr h0)]
  decide

/-- C4 (amended): for every non-negative integer byte count b, format_bytes
renders the value b / 1024^k to two decimal places followed by the unit label
at position k, where k is the smallest index at which the scaled value is at
most 1024, capped at the last index 4 (the TB ceiling). -/
theorem c4_format_bytes_scaling (b : ℤ) (_hb : 0 ≤ b) :
    ∃ k, k ≤ 4 ∧
      formatBytesLoop (units.length - 1) ((b : ℚ), 0) = ((b : ℚ) / 1024 ^ k, k) ∧
      format_bytes (b : ℚ) = fmt2 ((b : ℚ) / 1024 ^ k) ++ " " ++ units.getD k "" ∧
      ((b : ℚ) / 1024 ^ k ≤ 1024 ∨ k = 4) ∧
      (∀ j, j < k → 1024 < (b : ℚ) / 1024 ^ j) := by
  obtain ⟨m, hm4, heq, hprop, hall⟩ :=
    formatBytesLoop_spec (units.length - 1) ((b : ℚ)) 0 (by simp [units]) (by omega)
  simp only [Nat.zero_add] at heq hprop
  refine ⟨m, by omega, heq, ?_, hprop, hall⟩
  simp only [format_bytes, heq]

/-- Witness for C4 (amended) at 2048 bytes. -/
theorem c4_format_bytes_scaling_witness :
    ((0 : ℤ) ≤ 2048) ∧
    (∃ k, k ≤ 4 ∧
      formatBytesLoop (units.length - 1) ((((2048 : ℤ)) : ℚ), 0) =
        ((((2048 : ℤ)) : ℚ) / 1024 ^ k, k) ∧
      format_bytes (((2048 : ℤ)) : ℚ) =
        fmt2 ((((2048 : ℤ)) : ℚ) / 1024 ^ k) ++ " " ++ units.getD k "" ∧
      ((((2048 : ℤ)) : ℚ) / 1024 ^ k ≤ 1024 ∨ k = 4) ∧
      (∀ j, j < k → 1024 < (((2048 : ℤ)) : ℚ) / 1024 ^ j)) :=
  ⟨by decide, c4_format_bytes_scaling 2048 (by decide)⟩

/-- C4 as stated is false: at 2048 bytes the largest index k at or below the
TB ceiling with 2048 / 1024^k at most 1024 is k = 4, but the code renders
value 2.00 with unit KB, which is the smallest such index, and rendering with
k = 4 would give the different string 0.00 TB. -/
theorem c4_counterexample :
    format_bytes (2048 : ℚ) = "2.00 KB" ∧
    (2048 : ℚ) / 1024 ^ 4 ≤ 1024 ∧
    fmt2 ((2048 : ℚ) / 1024 ^ 4) ++ " " ++ units.getD 4 "" = "0.00 TB" ∧
    "0.00 TB" ≠ "2.00 KB" := by
  obtain ⟨m, hm4, heq, hprop, hall⟩ :=
    formatBytesLoop_spec (units.length - 1) ((2048 : ℚ)) 0 (by simp [units]) (by omega)
  simp only [Nat.zero_add] at heq hprop
  have hm : m = 1 := by
    by_contra hne
    rcases Nat.lt_or_ge m 1 with hlt | hge
    · have hm0 : m = 0 := by omega
      rw [hm0] at hprop
      rcases hprop with hv | hc
      · rw [pow_zero, div_one] at hv
        norm_num at hv
      · omega
    · have h1 := hall 1 (by omega)
      rw [pow_one] at h1
      norm_num at h1
  rw [hm, pow_one] at heq
  have hdiv : (2048 : ℚ) / 1024 = 2 := by norm_num
  rw [hdiv] at heq
  have hstr : format_bytes (2048 : ℚ) = fmt2 2 ++ " " ++ units.getD 1 "" := by
    simp only [format_bytes, heq]
  have hfmt : fmt2 (2 : ℚ) = "2.00" := by
    have h2 : ((2 : ℤ) : ℚ) = (2 : ℚ) := by norm_num
    rw [← h2, fmt2_intCast]
    rfl
  have hsmall : fmt2 ((2048 : ℚ) / 1024 ^ 4) = "0.00" := by
    apply fmt2_of_nonneg_lt_half
    · positivity
    · norm_num
  refine ⟨?_, by norm_num, ?_, by decide⟩
  · rw [hstr, hfmt]
    rfl
  · rw [hsmall]
    rfl

/-- C8: a byte count of zero or negative makes the loop perform no division,
and format_bytes returns the count rendered with two zero decimal places
followed by the unit Bytes; the function is total on every rational input by
construction. -/
theorem c8_format_bytes_nonpositive (b : ℤ) (hb : b ≤ 0) :
    formatBytesLoop (units.length - 1) ((b : ℚ), 0) = ((b : ℚ), 0) ∧
    format_bytes (b : ℚ) =
      (if b < 0 then "-" else "") ++ toString b.natAbs ++ ".00 Bytes" := by
  obtain ⟨m, hm4, heq, hprop, hall⟩ :=
    formatBytesLoop_spec (units.length - 1) ((b : ℚ)) 0 (by simp [units]) (by omega)
  simp only [Nat.zero_add] at heq hprop
  have hble : (b : ℚ) ≤ 0 := by exact_mod_cast hb
  have hm0 : m = 0 := by
    by_contra hne
    have h01 := hall 0 (by omega)
    rw [pow_zero, div_one] at h01
    linarith
  rw [hm0, pow_zero, div_one] at heq
  refine ⟨heq, ?_⟩
  have hstr : format_bytes (b : ℚ) = fmt2 (b : ℚ) ++ " " ++ units.getD 0 "" := by
    simp only [format_bytes, heq]
  rw [hstr, fmt2_intCast]
  rw [String.append_assoc, String.append_assoc]
  rfl

/-- Witness for C8 at a negative count. -/
theorem c8_format_bytes_nonpositive_witness :
    ((-2 : ℤ) ≤ 0) ∧
    (formatBytesLoop (units.length - 1) ((((-2 : ℤ)) : ℚ), 0) = ((((-2 : ℤ)) : ℚ), 0) ∧
    format_bytes (((-2 : ℤ)) : ℚ) =
      (if (-2 : ℤ) < 0 then "-" else "") ++ toString (-2 : ℤ).natAbs ++ ".00 Bytes") :=
  ⟨by decide, c8_format_bytes_nonpositive (-2) (by decide)⟩

/-- C9: for every metadata structure whose primary group, when present, is a
tag mapping, the record returned by get_primary_exif_values has exactly the
seven labels Make, Model, Orientation, XResolution, YResolution,
ResolutionUnit, Software, in that order, and a tag absent from the source
appears in the record with the missing value rather than being left out. -/
theorem c9_primary_record_keys (e : ExifDict) (_h0 : groupIsMapping e "0th" = true) :
    (get_primary_exif_values e).map Prod.fst =
      ["Make", "Model", "Orientation", "XResolution", "YResolution",
        "ResolutionUnit", "Software"] ∧
    ∀ tid label, (tid, label) ∈ tag_map → dictGet (getIfd e "0th") tid = none →
      (label, none) ∈ get_primary_exif_values e := by
  constructor
  · rfl
  · intro tid label hmem hnone
    simp only [get_primary_exif_values, List.mem_map]
    refine ⟨(tid, label), hmem, ?_⟩
    rw [hnone]
    rfl

/-- Witness for C9 at a structure with a primary group holding only a Make
tag. -/
theorem c9_primary_record_keys_witness :
    groupIsMapping [("0th", IfdData.ifd [(271, TagValue.strV "Canon")])] "0th" = true ∧
    ((get_primary_exif_values [("0th", IfdData.ifd [(271, TagValue.strV "Canon")])]).map
        Prod.fst =
      ["Make", "Model", "Orientation", "XResolution", "YResolution",
        "ResolutionUnit", "Software"] ∧
    ∀ tid label, (tid, label) ∈ tag_map →
      dictGet (getIfd [("0th", IfdData.ifd [(271, TagValue.strV "Canon")])] "0th") tid =
        none →
      (label, none) ∈
        get_primary_exif_values [("0th", IfdData.ifd [(271, TagValue.strV "Canon")])]) :=
  ⟨by decide, c9_primary_record_keys [("0th", IfdData.ifd [(271, TagValue.strV "Canon")])]
    (by decide)⟩

/-- C3 is false as stated: on the empty metadata structure, whose primary
group holds none of the seven camera tags, get_primary_exif_values does not
return an empty record; it returns a record of seven entries, each holding
the missing value, so absent tags are included rather than left out. -/
theorem c3_counterexample :
    get_primary_exif_values [] ≠ [] ∧
    (get_primary_exif_values []).length = 7 ∧
    ∀ p ∈ get_primary_exif_values [], p.2 = none := by
  decide

/-- C3 (amended): on a metadata structure whose primary group, when present,
is a tag mapping and contains none of the seven camera tags,
get_primary_exif_values returns the record in which each of the seven labels
maps to the missing value, and never raises; absent tags appear with the
missing value instead of being omitted. -/
theorem c3_primary_all_absent (e : ExifDict) (_h0 : groupIsMapping e "0th" = true)
    (habs : ∀ tl ∈ tag_map, dictGet (getIfd e "0th") tl.1 = none) :
    get_primary_exif_values e = tag_map.map (fun tl => (tl.2, none)) := by
  simp only [get_primary_exif_values]
  apply List.map_congr_left
  intro tl htl
  rw [habs tl htl]
  rfl

/-- Witness for C3 (amended) at the empty metadata structure. -/
theorem c3_primary_all_absent_witness :
    (groupIsMapping ([] : ExifDict) "0th" = true ∧
      ∀ tl ∈ tag_map, dictGet (getIfd ([] : ExifDict) "0th") tl.1 = none) ∧
    get_primary_exif_values ([] : ExifDict) = tag_map.map (fun tl => (tl.2, none)) :=
  ⟨⟨by decide, by decide⟩, c3_primary_all_absent [] (by decide) (by decide)⟩

/-- C5: the dump written by display_all_exif coincides, for every tag-name
table and every metadata structure, with the spec-side description: groups
whose value is not a mapping or is an empty mapping contribute nothing, and
every remaining group contributes its heading and one label/value line per
tag, with names resolved through the table and unknown tag identifiers
rendered with the synthetic Tag label. -/
theorem c5_display_matches_spec (TAGS : TagsTable) (e : ExifDict) :
    display_all_exif TAGS e = specDump TAGS e := by
  induction e with
  | nil => rfl
  | cons g rest ih =>
    simp only [display_all_exif, specDump, List.flatMap_cons] at ih ⊢
    rw [ih]
    congr 1
    rcases g with ⟨name, gd⟩
    cases gd with
    | ifd tags =>
      cases tags with
      | nil => rfl
      | cons t ts => rfl
    | blob b => rfl
    | noneData => rfl

/-- C6 is false as stated: in a metadata structure whose GPS group lacks the
longitude tag but holds a latitude reference whose byte value does not
decode, extract_gps_coords raises (the strict decode error is not a KeyError
and is not caught) instead of returning the pair of missing values. -/
theorem c6_counterexample :
    dictGet
      (getIfd [("GPS", IfdData.ifd
        [(1, TagValue.bytesV [255]), (2, TagValue.ratList [(1, 1), (2, 1), (3, 1)])])] "GPS")
      GPSIFD_GPSLongitude = none ∧
    groupIsMapping
      [("GPS", IfdData.ifd
        [(1, TagValue.bytesV [255]), (2, TagValue.ratList [(1, 1), (2, 1), (3, 1)])])]
      "GPS" = true ∧
    extract_gps_coords
      [("GPS", IfdData.ifd
        [(1, TagValue.bytesV [255]), (2, TagValue.ratList [(1, 1), (2, 1), (3, 1)])])] =
      Except.error () :=
  ⟨rfl, rfl, rfl⟩

/-- C6 (amended): extract_gps_coords returns the pair of missing values
without raising whenever the latitude tag or the latitude reference tag is
absent from the GPS group, or whenever a longitude tag is absent and the
latitude reference, if it is looked up first, decodes; an absent tag only
guarantees the missing pair when no reference value read before it fails to
decode. -/
theorem c6_missing_gps_tags (e : ExifDict)
    (h : (dictGet (getIfd e "GPS") GPSIFD_GPSLatitude = none ∨
          dictGet (getIfd e "GPS") GPSIFD_GPSLatitudeRef = none) ∨
         ((dictGet (getIfd e "GPS") GPSIFD_GPSLongitude = none ∨
           dictGet (getIfd e "GPS") GPSIFD_GPSLongitudeRef = none) ∧
          ∀ v, dictGet (getIfd e "GPS") GPSIFD_GPSLatitudeRef = some v →
            pyDecodeStrict v ≠ none)) :
    extract_gps_coords e = Except.ok (none, none) := by
  rcases hv2 : dictGet (getIfd e "GPS") GPSIFD_GPSLatitude with _ | latv
  · simp only [extract_gps_coords, hv2]
  · rcases hv1 : dictGet (getIfd e "GPS") GPSIFD_GPSLatitudeRef with _ | latrefv
    · simp only [extract_gps_coords, hv2, hv1]
    · rcases h with (h1 | h1) | ⟨h2, hdec⟩
      · rw [hv2] at h1
        exact absurd h1 (by simp)
      · rw [hv1] at h1
        exact absurd h1 (by simp)
      · have hne := hdec latrefv hv1
        rcases hs : pyDecodeStrict latrefv with _ | s
        · exact absurd hs hne
        · rcases hv4 : dictGet (getIfd e "GPS") GPSIFD_GPSLongitude with _ | lonv
          · simp only [extract_gps_coords, hv2, hv1, hs, hv4]
          · rcases h2 with h4 | h3
            · rw [hv4] at h4
              exact absurd h4 (by simp)
            · simp only [extract_gps_coords, hv2, hv1, hs, hv4, h3]

/-- Witness for C6 (amended) at the empty metadata structure, where every
GPS tag is absent. -/
theorem c6_missing_gps_tags_witness :
    ((dictGet (getIfd ([] : ExifDict) "GPS") GPSIFD_GPSLatitude = none ∨
      dictGet (getIfd ([] : ExifDict) "GPS") GPSIFD_GPSLatitudeRef = none) ∨
     ((dictGet (getIfd ([] : ExifDict) "GPS") GPSIFD_GPSLongitude = none ∨
       dictGet (getIfd ([] : ExifDict) "GPS") GPSIFD_GPSLongitudeRef = none) ∧
      ∀ v, dictGet (getIfd ([] : ExifDict) "GPS") GPSIFD_GPSLatitudeRef = some v →
        pyDecodeStrict v ≠ none)) ∧
    extract_gps_coords ([] : ExifDict) = Except.ok (none, none) :=
  ⟨Or.inl (Or.inl (by decide)), c6_missing_gps_tags [] (Or.inl (Or.inl (by decide)))⟩

/-- C7 is false as stated: on a render pass that enters the Loaded state (the
temporary file is written) but where image decoding raises, the pass ends
without the removal of the temporary file. -/
theorem c7_counterexample :
    Action.writeTemp ∈ loadedTrace ⟨true, false, []⟩ ∧
    Action.removeTemp ∉ loadedTrace ⟨true, false, []⟩ := by
  decide

/-- C7 (amended): the temporary file is removed exactly on the passes that
run to completion: image decoding and metadata parsing succeed and the GPS
extraction does not raise. A pass aborted by a decode, parse, or extraction
exception skips the trailing removal, while extraction that merely yields
missing values still reaches it. -/
theorem c7_temp_removal (env : RenderEnv) :
    Action.removeTemp ∈ loadedTrace env ↔
      (env.decodeRaises = false ∧ env.parseRaises = false ∧
        ∃ p, extract_gps_coords env.exif = Except.ok p) := by
  rcases env with ⟨dec, par, exif⟩
  cases dec
  · cases par
    · rcases hx : extract_gps_coords exif with u | p
      · simp [loadedTrace, hx]
      · simp [loadedTrace, hx]
    · simp [loadedTrace]
  · simp [loadedTrace]

end RmPhoto
